import Mathlib

/-!
Verification of the meta-prompt orchestrator (src/src/app/page.tsx).

The logical core of the page is embedded shallowly:
* the placeholder regex `/{{\s*([^{}]+?)\s*}}/g` is modelled by a
  character-level tokenizer (`tokenize`) that splits a string into literal
  characters and well-formed markers (a marker is `{{` + a non-empty
  brace-free interior + `}}`, matched leftmost, ending at the first `}}`);
* `detectPlaceholders`, `injectVariables`, `packToMarkdown`, the derived
  values `selectedPack` / `finalPrompt` / `combinedPrompt`, the state
  handlers `handleSelectPack` / `handlePackFieldChange` / `addNewPack`,
  and the JSON snapshot builder are translated function by function;
* the React component state (metaPrompt, variables, packs, selectedPackId)
  becomes an explicit `AppState` record, and each handler a state
  transformer.
-/

namespace MetaPrompt

/-- Characters that the JavaScript regex class `\s` (and `String.trim`)
treats as whitespace. -/
def isJsSpace (c : Char) : Bool :=
  c = ' ' || c = '\t' || c = '\n' || c = '\r' || c = '\x0b' || c = '\x0c' ||
  c = '\xa0' || c = ' ' || (0x2000 ≤ c.toNat && c.toNat ≤ 0x200a) ||
  c = ' ' || c = ' ' || c = ' ' || c = ' ' ||
  c = '　' || c = '﻿'

/-- Brace characters, which may not occur inside a placeholder marker. -/
def isBrace (c : Char) : Bool :=
  c = '\x7b' || c = '\x7d'

/-- JavaScript `String.prototype.trim` on a character list: drop whitespace
from both ends. -/
def trimChars (cs : List Char) : List Char :=
  ((cs.dropWhile isJsSpace).reverse.dropWhile isJsSpace).reverse

/-- Source `normaliseKey`: trim the raw key. -/
def normaliseKey (rawKey : String) : String :=
  String.mk (trimChars rawKey.data)

/-- Source `VariableMap = Record<string, string>`, modelled as an ordered
association list (JavaScript objects preserve key insertion order). -/
abbrev VariableMap : Type := List (String × String)

/-- Read a variable; `none` models JavaScript `undefined`. -/
def lookupVar : VariableMap → String → Option String
  | [], _ => none
  | (k, v) :: rest, key => if k = key then some v else lookupVar rest key

/-- Source `{...prev, [key]: value}`: overwrite the entry in place if the
key exists, otherwise append it (JavaScript object key-order semantics). -/
def setVar : VariableMap → String → String → VariableMap
  | [], key, value => [(key, value)]
  | (k, v) :: rest, key, value =>
      if k = key then (key, value) :: rest else (k, v) :: setVar rest key value

/-- One token of a template: a literal character, or a well-formed
placeholder marker with its raw (untrimmed) interior. -/
inductive Tok where
  | lit (c : Char)
  | marker (inner : List Char)
deriving DecidableEq

/-- Try to read, from the text following an opening `{{`, a non-empty
brace-free interior immediately followed by `}}`; return the interior and
the remaining text. This is how the regex `{{\s*([^{}]+?)\s*}}` matches at
a fixed start: the interior may contain no brace, so the match must end at
the first brace, which must start a `}}`. -/
def splitMarker (cs : List Char) : Option (List Char × List Char) :=
  match cs.dropWhile (fun c => !(isBrace c)) with
  | '\x7d' :: '\x7d' :: tail =>
      let r := cs.takeWhile (fun c => !(isBrace c))
      if r.isEmpty then none else some (r, tail)
  | _ => none

/-- Recursion-depth fuel for the tokenizer loop: the loop consumes at
least one character per step, so `tokenize` supplies the input length and
the fuel-exhausted case is unreachable. Structural recursion on the fuel
keeps the function computable by the kernel. -/
def tokenizeAux : Nat → List Char → List Tok
  | _, [] => []
  | 0, c :: rest => (c :: rest).map .lit
  | _ + 1, [c] => [.lit c]
  | fuel + 1, c1 :: c2 :: rest =>
    if c1 = '\x7b' ∧ c2 = '\x7b' then
      match splitMarker rest with
      | some (inner, tail) => .marker inner :: tokenizeAux fuel tail
      | none => .lit c1 :: tokenizeAux fuel (c2 :: rest)
    else .lit c1 :: tokenizeAux fuel (c2 :: rest)

/-- Leftmost-match tokenization of a template by the placeholder regex:
at each position, if `{{` starts a well-formed marker, consume it,
otherwise emit one literal character and continue (the regex engine
advances the start position by one on failure). -/
def tokenize (cs : List Char) : List Tok :=
  tokenizeAux cs.length cs

/-- The exact characters a token occupies in the template. -/
def flattenTok : Tok → List Char
  | .lit c => [c]
  | .marker inner => '\x7b' :: '\x7b' :: (inner ++ ['\x7d', '\x7d'])

/-- Concatenate the characters of a token list. -/
def flattens (ts : List Tok) : List Char :=
  match ts with
  | [] => []
  | t :: rest => flattenTok t ++ flattens rest

/-- The accumulator loop of source `detectPlaceholders`: walk the matches
in order, keep each trimmed non-empty key the first time it is seen
(`Set.add` on an insertion-ordered set). -/
def collectKeys : List Tok → List String → List String
  | [], acc => acc
  | .lit _ :: ts, acc => collectKeys ts acc
  | .marker inner :: ts, acc =>
      let key := normaliseKey (String.mk inner)
      if key.length > 0 then
        (if key ∈ acc then collectKeys ts acc else collectKeys ts (acc ++ [key]))
      else collectKeys ts acc

/-- Source `detectPlaceholders`: the distinct trimmed non-empty placeholder
names of a template, in order of first occurrence. -/
def detectPlaceholders (prompt : String) : List String :=
  collectKeys (tokenize prompt.data) []

/-- The replacement callback of source `injectVariables` applied to every
match: a marker becomes its value when that value exists and is non-empty,
and otherwise the re-normalised marker `{{key}}`. -/
def renderToks (values : VariableMap) : List Tok → List Char
  | [] => []
  | .lit c :: ts => c :: renderToks values ts
  | .marker inner :: ts =>
      (let key := normaliseKey (String.mk inner)
       match lookupVar values key with
       | some value =>
           if value ≠ "" then value.data
           else '\x7b' :: '\x7b' :: (key.data ++ ['\x7d', '\x7d'])
       | none => '\x7b' :: '\x7b' :: (key.data ++ ['\x7d', '\x7d']))
      ++ renderToks values ts

/-- Source `injectVariables`: `template.replace(PLACEHOLDER_REGEX, ...)`. -/
def injectVariables (template : String) (values : VariableMap) : String :=
  String.mk (renderToks values (tokenize template.data))

/-- The trimmed non-empty keys of all markers of a template, in match
order, duplicates included (the raw occurrence list that the scanner
deduplicates). -/
def occKeys : List Tok → List String
  | [] => []
  | .lit _ :: ts => occKeys ts
  | .marker inner :: ts =>
      let key := normaliseKey (String.mk inner)
      if key.length > 0 then key :: occKeys ts else occKeys ts

/-- Canonical first-occurrence deduplication: keep the head, remove its
later duplicates, recurse. -/
def dedupFO : List String → List String
  | [] => []
  | k :: rest => k :: (dedupFO rest).filter (fun x => x ≠ k)

/-- Boolean substring test on character lists. -/
def hasSub (hay sub : List Char) : Bool :=
  match hay with
  | [] => sub.isEmpty
  | _ :: t => sub.isPrefixOf hay || hasSub t sub

/-- A template has a marker when its tokenization contains one (that is,
the placeholder regex matches somewhere in it). -/
def hasMarker (s : String) : Bool :=
  (tokenize s.data).any (fun t => match t with | .marker _ => true | .lit _ => false)

/-- JavaScript `String.prototype.trim` on a string. -/
def trimStr (s : String) : String :=
  String.mk (trimChars s.data)

/-- The character loop behind `splitNl`: `cur` accumulates the current
line in reverse. -/
def splitNlAux : List Char → List Char → List (List Char)
  | [], cur => [cur.reverse]
  | '\n' :: rest, cur => cur.reverse :: splitNlAux rest []
  | c :: rest, cur => splitNlAux rest (c :: cur)

/-- JavaScript `s.split("\n")`: the newline-separated pieces of `s`, in
order, trailing empty piece included (`"".split("\n")` is `[""]`). -/
def splitNl (s : String) : List String :=
  (splitNlAux s.data []).map String.mk

/-- Source `PackPrompt` record. -/
structure PackPrompt where
  id : String
  name : String
  packName : String
  goal : String
  perImage : String
  systemNotes : String
deriving DecidableEq

/-- Source `DEFAULT_META_PROMPT`. -/
def DEFAULT_META_PROMPT : String :=
  "You are \"Synthetic-Factory\", a zero-GPU, CPU-only background service.\nYour sole task: produce exactly \x7b\x7bcount\x7d\x7d labelled synthetic images for \x7b\x7bpack_name\x7d\x7d.\nConstraints:\n- Never use real personal data.\n- Output folder: \x7b\x7boutput_path\x7d\x7d\n- Label format: COCO-JSON + plain txt sidecar.\n- Max resolution: 2K; file size < 300 KB.\n- Randomisation seed = \x7b\x7buser_id\x7d\x7d * 997.\n- Finish in < \x7b\x7btimeout\x7d\x7d seconds (CPU laptop level).\n- Zip results and place a DONE.txt with MD5 hashes.\n- Return only a JSON summary: \x7b\"status\":\"done\",\"zip_size_MB\":x,\"file_count\":y,\"md5\":\"z\"\x7d\n\nPACK-SPECIFIC ALT-PROMPTS (use when pack matches)"

/-- Source `DEFAULT_PACKS`. -/
def DEFAULT_PACKS : List PackPrompt :=
  [{ id := "tr_invoice",
     name := "Turkish Invoice Pack",
     packName := "TR_INVOICE",
     goal := "Synthetic finance documents mimicking Turkish invoices with anonymised merchant and buyer data.",
     perImage := String.intercalate "\n"
       ["header=\"FATURA\" aligned to the top center",
        "fields: vergi_no, fatura_no, tarih (DD.MM.YYYY), saat, kasa_id",
        "table rows with ürün_adı, adet, birim_fiyat, toplam",
        "QR code placeholder bottom right with caption \x27E-Arşiv\x27",
        "stamp \x27DİJİTAL KOPYA\x27 diagonally semi-transparent"],
     systemNotes := "Ensure totals are arithmetically consistent. Rotate 15% of samples by ±5° for scanner realism." },
   { id := "us_id",
     name := "US ID Cards",
     packName := "US_ID_V1",
     goal := "Generate anonymised US-style identification cards with varied backgrounds and lighting.",
     perImage := String.intercalate "\n"
       ["front-and-back layout split horizontally",
        "fields: name, dob, issue_date, expiry_date, doc_number",
        "random portrait photo placeholder with coloured silhouette",
        "magnetic stripe or barcode on back with gibberish data"],
     systemNotes := "Use lorem ipsum for text values. Render hologram overlays with subtle transparency." },
   { id := "parking_tickets",
     name := "Parking Ticket Notices",
     packName := "PARKING_NOTICE_EU",
     goal := "Urban municipality parking violation notices in EU languages with unique ticket numbers.",
     perImage := String.intercalate "\n"
       ["municipality header with crest placeholder",
        "sections: offence_details, location, timestamp, fine_amount",
        "footer with payment instructions and IBAN style account numbers",
        "paper texture background with folds or creases"],
     systemNotes := "Alternate languages (DE, FR, NL, IT). 20% should include overdue surcharge line item." }]

/-- Source `DEFAULT_VARIABLES`, in declaration order. -/
def DEFAULT_VARIABLES : VariableMap :=
  [("count", "24"),
   ("pack_name", "TR_INVOICE"),
   ("output_path", "/tmp/synthetic_factory/output"),
   ("user_id", "142857"),
   ("timeout", "45")]

/-- Source `packToMarkdown`. -/
def packToMarkdown (pack : PackPrompt) : String :=
  String.intercalate "\n"
    ["Pack Name: " ++ pack.packName,
     "Objective: " ++ pack.goal,
     "",
     "Per Image Directives:",
     String.intercalate "\n" ((splitNl pack.perImage).map (fun line => "- " ++ line)),
     "",
     "System Notes: " ++ pack.systemNotes]

/-- The mutable state of the `Home` component: `metaPrompt`, `«variables»`,
`packs` and `selectedPackId` (`copied` only drives transient UI labels and
carries no engine state). -/
structure AppState where
  metaPrompt : String
  «variables» : VariableMap
  packs : List PackPrompt
  selectedPackId : String
deriving DecidableEq

/-- The component's initial state (`useState` initializers):
`selectedPackId` starts as `DEFAULT_PACKS[0]?.id ?? ""`. -/
def initialState : AppState :=
  { metaPrompt := DEFAULT_META_PROMPT,
    «variables» := DEFAULT_VARIABLES,
    packs := DEFAULT_PACKS,
    selectedPackId := ((DEFAULT_PACKS.head?).map (fun pack => pack.id)).getD "" }

/-- Derived value `selectedPack = packs.find(p => p.id === selectedPackId) ?? packs[0]`. -/
def selectedPack (st : AppState) : Option PackPrompt :=
  match st.packs.find? (fun pack => pack.id == st.selectedPackId) with
  | some pack => some pack
  | none => st.packs.head?

/-- Derived value `finalPrompt = injectVariables(metaPrompt, variables)`. -/
def finalPrompt (st : AppState) : String :=
  injectVariables st.metaPrompt st.«variables»

/-- Derived value `combinedPrompt`: the rendered template alone when no
pack is selected, otherwise the rendered template, the fixed divider and
the pack section. -/
def combinedPrompt (st : AppState) : String :=
  match selectedPack st with
  | none => finalPrompt st
  | some pack => finalPrompt st ++ "\n\n---\n\n" ++ packToMarkdown pack

/-- Source `handleVariableChange`. -/
def handleVariableChange (st : AppState) (key value : String) : AppState :=
  { st with «variables» := setVar st.«variables» key value }

/-- Source `handleSelectPack`: unconditionally store the requested id,
then propagate the pack identifier into `pack_name` when a pack with that
id exists. -/
def handleSelectPack (st : AppState) (packId : String) : AppState :=
  let st1 := { st with selectedPackId := packId }
  match st.packs.find? (fun item => item.id == packId) with
  | some pack => handleVariableChange st1 "pack_name" pack.packName
  | none => st1

/-- The field names of `PackPrompt` (`keyof PackPrompt`); every field has
string type, so a field edit carries a string value. -/
inductive PackField where
  | id
  | name
  | packName
  | goal
  | perImage
  | systemNotes
deriving DecidableEq

/-- Read one field of a pack record. -/
def getField (pack : PackPrompt) : PackField → String
  | .id => pack.id
  | .name => pack.name
  | .packName => pack.packName
  | .goal => pack.goal
  | .perImage => pack.perImage
  | .systemNotes => pack.systemNotes

/-- Source `{...pack, [field]: value}`. -/
def setField (pack : PackPrompt) : PackField → String → PackPrompt
  | .id, value => { pack with id := value }
  | .name, value => { pack with name := value }
  | .packName, value => { pack with packName := value }
  | .goal, value => { pack with goal := value }
  | .perImage, value => { pack with perImage := value }
  | .systemNotes, value => { pack with systemNotes := value }

/-- Source `handlePackFieldChange`: rewrite the field on every pack whose
id equals the current selection id, and mirror `packName` edits into the
`pack_name` variable. -/
def handlePackFieldChange (st : AppState) (field : PackField) (value : String) : AppState :=
  let st1 := { st with
    packs := st.packs.map (fun pack =>
      if pack.id == st.selectedPackId then setField pack field value else pack) }
  if field = PackField.packName then handleVariableChange st1 "pack_name" value else st1

/-- Decimal rendering of a natural number, as the JavaScript template
literal `${nextIndex}` renders a non-negative integer. -/
def natRepr (n : Nat) : String :=
  if n = 0 then "0"
  else String.mk (((Nat.digits 10 n).reverse).map Nat.digitChar)

/-- The record that source `addNewPack` creates for a given `nextIndex`. -/
def freshPackDefaults (nextIndex : Nat) : PackPrompt :=
  { id := "pack_" ++ natRepr nextIndex,
    name := "New Pack " ++ natRepr nextIndex,
    packName := "PACK_" ++ natRepr nextIndex,
    goal := "Describe the objective for this synthetic data pack.",
    perImage := "List per-image directives, each on its own line.",
    systemNotes := "Add advanced notes such as balancing rules or post-processing." }

/-- Source `addNewPack`: `nextIndex = packs.length + 1`, append the fresh
record, select it, propagate its pack identifier into `pack_name`. -/
def addNewPack (st : AppState) : AppState :=
  let newPack := freshPackDefaults (st.packs.length + 1)
  handleVariableChange
    { st with packs := st.packs ++ [newPack], selectedPackId := newPack.id }
    "pack_name" newPack.packName

/-- The JSON values produced by the export (null, strings, arrays and
objects are the only shapes the snapshot uses). -/
inductive Json where
  | null
  | str (s : String)
  | arr (items : List Json)
  | obj (fields : List (String × Json))

/-- One character of a JSON-quoted string, per the `JSON.stringify`
string-escaping rules. -/
def escapeChar (c : Char) : String :=
  if c = '"' then "\\\""
  else if c = '\\' then "\\\\"
  else if c = '\x08' then "\\b"
  else if c = '\x0c' then "\\f"
  else if c = '\n' then "\\n"
  else if c = '\r' then "\\r"
  else if c = '\t' then "\\t"
  else if c.toNat < 0x20 then
    "\\u00" ++ String.mk [Nat.digitChar (c.toNat / 16), Nat.digitChar (c.toNat % 16)]
  else String.mk [c]

/-- A JSON string literal. -/
def quoteStr (s : String) : String :=
  "\"" ++ String.join (s.data.map escapeChar) ++ "\""

/-- Serialization of a JSON value as `JSON.stringify(value, null, 2)`
prints it when the surrounding indentation is `ind`: array items and
object entries each sit on their own line, indented two spaces deeper,
joined by `,\n`, with the closing bracket on the container's indentation.
The first argument is recursion-depth fuel (structural recursion keeps the
printer computable by the kernel); every call supplies more fuel than the
value's nesting depth, so the exhausted case is unreachable. -/
def stringifyVal : Nat → String → Json → String
  | 0, _, _ => ""
  | _ + 1, _, .null => "null"
  | _ + 1, _, .str s => quoteStr s
  | _ + 1, _, .arr [] => "[]"
  | fuel + 1, ind, .arr (x :: xs) =>
      "[\n" ++
      String.intercalate ",\n"
        ((x :: xs).map (fun item => ind ++ "  " ++ stringifyVal fuel (ind ++ "  ") item)) ++
      "\n" ++ ind ++ "]"
  | _ + 1, _, .obj [] => "\x7b\x7d"
  | fuel + 1, ind, .obj (f :: fs) =>
      "\x7b\n" ++
      String.intercalate ",\n"
        ((f :: fs).map (fun fld =>
          ind ++ "  " ++ quoteStr fld.1 ++ ": " ++ stringifyVal fuel (ind ++ "  ") fld.2)) ++
      "\n" ++ ind ++ "\x7d"

/-- The re-shaped pack object of the JSON snapshot: `packName`, `goal`,
`perImage` split on newlines with each line trimmed, `systemNotes`. -/
def packSnapshot (pack : PackPrompt) : Json :=
  .obj [("packName", .str pack.packName),
        ("goal", .str pack.goal),
        ("perImage", .arr ((splitNl pack.perImage).map (fun line => .str (trimStr line)))),
        ("systemNotes", .str pack.systemNotes)]

/-- The JSON value handed to `JSON.stringify` by the snapshot button:
`{metaPrompt: finalPrompt, selectedPack: ...or null, variables}`. -/
def snapshotJson (st : AppState) : Json :=
  .obj [("metaPrompt", .str (finalPrompt st)),
        ("selectedPack",
          match selectedPack st with
          | some pack => packSnapshot pack
          | none => .null),
        ("variables", .obj (st.«variables».map (fun kv => (kv.1, Json.str kv.2))))]

/-- The copied snapshot text: `JSON.stringify(snapshot, null, 2)`. The
snapshot value has a fixed shape of nesting depth four, so fuel `8` is
more than enough. -/
def jsonExport (st : AppState) : String :=
  stringifyVal 8 "" (snapshotJson st)

/-- The `selectedPack ? {...} : null` part of the snapshot, as a function
of the derived active pack. -/
def packJsonOf : Option PackPrompt → Json
  | some pack => packSnapshot pack
  | none => Json.null

/-- A small concrete pack record used as a test fixture. -/
def samplePack : PackPrompt :=
  { id := "p1", name := "n", packName := "P", goal := "G",
    perImage := "a\nb", systemNotes := "N" }

/-- A small concrete application state used as a test fixture. -/
def sampleState : AppState :=
  { metaPrompt := "Hi \x7b\x7bx\x7d\x7d",
    «variables» := [("x", "1")],
    packs := [samplePack],
    selectedPackId := "p1" }

/-! ### Tokenizer structure lemmas -/

theorem splitMarker_eq {cs inner tail : List Char}
    (h : splitMarker cs = some (inner, tail)) :
    cs = inner ++ '\x7d' :: '\x7d' :: tail ∧ inner ≠ [] ∧
      ∀ c ∈ inner, isBrace c = false := by
  unfold splitMarker at h
  split at h
  next tail' heq =>
    by_cases hr : (cs.takeWhile (fun c => !(isBrace c))).isEmpty
    · simp [hr] at h
    · simp [hr] at h
      obtain ⟨hinner, htail⟩ := h
      subst hinner
      subst htail
      refine ⟨?_, ?_, ?_⟩
      · conv_lhs => rw [← List.takeWhile_append_dropWhile (p := fun c => !(isBrace c)) (l := cs)]
        rw [heq]
      · simpa using hr
      · intro c hc
        have := List.mem_takeWhile_imp hc
        simpa using this
  next => exact absurd h (by simp)

theorem tokenizeAux_flatten :
    ∀ (fuel : Nat) (cs : List Char), cs.length ≤ fuel →
      flattens (tokenizeAux fuel cs) = cs := by
  intro fuel
  induction fuel with
  | zero =>
      intro cs h
      cases cs with
      | nil => rfl
      | cons c rest => simp at h
  | succ fuel ih =>
      intro cs h
      match cs with
      | [] => rfl
      | [c] => rfl
      | c1 :: c2 :: rest =>
        by_cases hb : c1 = '\x7b' ∧ c2 = '\x7b'
        · obtain ⟨hb1, hb2⟩ := hb
          subst hb1 hb2
          cases hm : splitMarker rest with
          | some p =>
              obtain ⟨inner, tail⟩ := p
              obtain ⟨hcs, hne, -⟩ := splitMarker_eq hm
              have hpos : 0 < inner.length := List.length_pos.mpr hne
              have hlen : tail.length ≤ fuel := by
                rw [hcs] at h
                simp at h
                omega
              simp [tokenizeAux, hm, flattens, flattenTok, ih tail hlen]
              simp [hcs]
          | none =>
              have hlen : ('\x7b' :: rest).length ≤ fuel := by simp at h ⊢; omega
              simp [tokenizeAux, hm, flattens, flattenTok, ih _ hlen]
        · have hlen : (c2 :: rest).length ≤ fuel := by simp at h ⊢; omega
          simp [tokenizeAux, if_neg hb, flattens, flattenTok, ih _ hlen]

theorem tokenize_flatten (cs : List Char) : flattens (tokenize cs) = cs :=
  tokenizeAux_flatten cs.length cs (Nat.le_refl _)

/-! ### Trimming and scanner lemmas -/

theorem dropWhile_head_false {p : Char → Bool} {l : List Char} {b : Char} {t : List Char}
    (h : l.dropWhile p = b :: t) : p b = false := by
  have hne : l.dropWhile p ≠ [] := by simp [h]
  have h2 := List.head_dropWhile_not p l hne
  revert h2 hne
  rw [h]
  intro hne h2
  simpa using h2

theorem trimChars_idem (cs : List Char) : trimChars (trimChars cs) = trimChars cs := by
  unfold trimChars
  set p := isJsSpace with hp
  set A := cs.dropWhile p with hA
  set B := (A.reverse.dropWhile p).reverse with hB
  have hBrev : B.reverse = A.reverse.dropWhile p := by rw [hB, List.reverse_reverse]
  have hstep1 : B.dropWhile p = B := by
    cases hBc : B with
    | nil => simp
    | cons b t =>
        have hpre : B <+: A := by
          rw [← List.reverse_suffix]
          rw [hBrev]
          exact List.dropWhile_suffix p
        obtain ⟨u, hu⟩ := hpre
        have hAeq : A = b :: (t ++ u) := by rw [← hu, hBc]; simp
        have hb : p b = false := dropWhile_head_false (l := cs) (by rw [← hA, hAeq])
        rw [List.dropWhile_cons, hb]
        simp
  rw [hstep1, hBrev, List.dropWhile_idempotent, ← hBrev, List.reverse_reverse]

theorem trimStr_idem (s : String) : trimStr (trimStr s) = trimStr s := by
  unfold trimStr
  exact congrArg String.mk (trimChars_idem s.data)

theorem occKeys_mem {ts : List Tok} {k : String} (hk : k ∈ occKeys ts) :
    k ≠ "" ∧ trimStr k = k := by
  induction ts with
  | nil => simp [occKeys] at hk
  | cons t ts ih =>
      cases t with
      | lit c => exact ih (by simpa [occKeys] using hk)
      | marker inner =>
          by_cases hlen : (normaliseKey (String.mk inner)).length > 0
          · rw [occKeys] at hk
            simp only [hlen, if_pos] at hk
            rcases List.mem_cons.mp hk with hkey | hkey
            · subst hkey
              constructor
              · intro hemp
                rw [hemp] at hlen
                simp at hlen
              · show trimStr (normaliseKey (String.mk inner)) = normaliseKey (String.mk inner)
                unfold normaliseKey trimStr
                exact congrArg String.mk (trimChars_idem inner)
            · exact ih hkey
          · rw [occKeys] at hk
            simp only [hlen, if_neg] at hk
            exact ih (by simpa using hk)

theorem dedupFO_nodup (l : List String) : (dedupFO l).Nodup := by
  induction l with
  | nil => simp [dedupFO]
  | cons k rest ih =>
      rw [dedupFO]
      refine List.Nodup.cons ?_ (List.Nodup.filter _ ih)
      intro hmem
      have := List.of_mem_filter hmem
      simp at this

theorem mem_dedupFO (l : List String) (x : String) : x ∈ dedupFO l ↔ x ∈ l := by
  induction l with
  | nil => simp [dedupFO]
  | cons k rest ih =>
      rw [dedupFO]
      by_cases hx : x = k
      · subst hx; simp
      · simp only [List.mem_cons, List.mem_filter, ih, hx, decide_not, false_or]
        simp [hx]

theorem collectKeys_eq (ts : List Tok) :
    ∀ acc : List String,
      collectKeys ts acc =
        acc ++ (dedupFO (occKeys ts)).filter (fun x => decide (x ∉ acc)) := by
  induction ts with
  | nil => intro acc; simp [collectKeys, occKeys, dedupFO]
  | cons t ts ih =>
      intro acc
      cases t with
      | lit c => simp [collectKeys, occKeys, ih]
      | marker inner =>
          rw [collectKeys, occKeys]
          by_cases hlen : (normaliseKey (String.mk inner)).length > 0
          · simp only [hlen, if_pos]
            set key := normaliseKey (String.mk inner) with hkey
            rw [dedupFO]
            by_cases hmem : key ∈ acc
            · simp only [hmem, if_pos]
              rw [ih acc]
              congr 1
              rw [List.filter_cons]
              have hdec : decide (key ∉ acc) = false := by simp [hmem]
              rw [hdec, if_neg (by simp)]
              rw [List.filter_filter]
              refine (List.filter_congr ?_).symm
              intro x _
              by_cases hx : x ∈ acc
              · simp [hx]
              · have hxk : x ≠ key := fun h => hx (h ▸ hmem)
                simp [hx, hxk]
            · simp only [hmem, if_neg, not_false_eq_true]
              rw [ih (acc ++ [key])]
              rw [List.filter_cons]
              have hdec : decide (key ∉ acc) = true := by simp [hmem]
              rw [hdec, if_pos (by simp)]
              rw [List.filter_filter]
              rw [List.append_assoc, List.singleton_append]
              congr 1
              congr 1
              refine List.filter_congr ?_
              intro x _
              by_cases hx : x ∈ acc
              · simp [hx]
              · by_cases hxk : x = key
                · simp [hxk, hx]
                · simp [hx, hxk]
          · simp only [hlen, if_neg, not_false_eq_true]
            exact ih acc

/-- Claim C4: for every template string, including malformed brace
sequences, the scanner returns placeholder names with no duplicates and no
empty strings, each name trimmed (a fixed point of trimming), and the
result is exactly the first-occurrence deduplication of the trimmed
non-empty marker keys in match order. -/
theorem claim_C4 (s : String) :
    (detectPlaceholders s).Nodup ∧
    (detectPlaceholders s).all (fun k => !(k == "") && (trimStr k == k)) = true ∧
    detectPlaceholders s = dedupFO (occKeys (tokenize s.data)) := by
  have heq : detectPlaceholders s = dedupFO (occKeys (tokenize s.data)) := by
    rw [detectPlaceholders, collectKeys_eq]
    simp
  refine ⟨?_, ?_, heq⟩
  · rw [heq]; exact dedupFO_nodup _
  · rw [List.all_eq_true]
    intro k hk
    rw [heq] at hk
    obtain ⟨h1, h2⟩ := occKeys_mem ((mem_dedupFO _ _).mp hk)
    simp [h1, h2]

/-! ### Substitution-engine lemmas -/

theorem renderToks_eq_flattens (values : VariableMap) :
    ∀ ts : List Tok,
      (∀ t ∈ ts, (match t with | Tok.marker _ => true | Tok.lit _ => false) = false) →
      renderToks values ts = flattens ts := by
  intro ts h
  induction ts with
  | nil => rfl
  | cons t ts ih =>
      cases t with
      | marker inner =>
          have hcontra := h (Tok.marker inner) (List.mem_cons_self _ _)
          simp at hcontra
      | lit c =>
          rw [renderToks, flattens, flattenTok]
          rw [ih (fun t ht => h t (List.mem_cons_of_mem _ ht))]
          rfl

theorem render_of_no_marker {s : String} (values : VariableMap)
    (h : hasMarker s = false) : injectVariables s values = s := by
  unfold hasMarker at h
  rw [List.any_eq_false] at h
  have hr : renderToks values (tokenize s.data) = flattens (tokenize s.data) :=
    renderToks_eq_flattens values _ (fun t ht => by simpa using h t ht)
  rw [injectVariables, hr, tokenize_flatten]

/-- Claim C2 counterexample: for the template `{{a}}` and the store
mapping `a` to the non-empty value `{{ b }}`, every scanned name has a
non-empty value, yet rendering twice normalises the marker produced by
substitution (`{{ b }}` becomes `{{b}}`), so render∘render differs from
render. -/
theorem claim_C2_cex :
    (∀ k ∈ detectPlaceholders "\x7b\x7ba\x7d\x7d",
        lookupVar [("a", "\x7b\x7b b \x7d\x7d")] k ≠ none ∧
        lookupVar [("a", "\x7b\x7b b \x7d\x7d")] k ≠ some "") ∧
    injectVariables
        (injectVariables "\x7b\x7ba\x7d\x7d" [("a", "\x7b\x7b b \x7d\x7d")])
        [("a", "\x7b\x7b b \x7d\x7d")] ≠
      injectVariables "\x7b\x7ba\x7d\x7d" [("a", "\x7b\x7b b \x7d\x7d")] := by
  constructor
  · decide
  · decide

/-- Claim C2 (amended): rendering is idempotent on every fully resolved
output: whenever the placeholder regex finds no marker in `render(T,S)`,
rendering that output again with the same store returns it unchanged. (The
original side condition - every name in `scan(T)` has a non-empty value -
is not sufficient, because substituted values may themselves introduce new
markers; see the counterexample.) -/
theorem claim_C2 (T : String) (S : VariableMap)
    (h : hasMarker (injectVariables T S) = false) :
    injectVariables (injectVariables T S) S = injectVariables T S :=
  render_of_no_marker S h

theorem claim_C2_witness :
    hasMarker (injectVariables "Generate \x7b\x7bcount\x7d\x7d images" [("count", "10")]) = false ∧
    injectVariables
        (injectVariables "Generate \x7b\x7bcount\x7d\x7d images" [("count", "10")])
        [("count", "10")] =
      injectVariables "Generate \x7b\x7bcount\x7d\x7d images" [("count", "10")] :=
  ⟨by decide, claim_C2 "Generate \x7b\x7bcount\x7d\x7d images" [("count", "10")] (by decide)⟩

/-! ### Composer claims -/

/-- Claim C3 counterexample: for the pack of the concrete scenario
(packName `US_ID_V1`, goal `G`, directives `a\nb`, notes `N`), the
pack-section text does not have a blank line between the `Pack Name:` line
and the `Objective:` line, contrary to the claimed fixed layout. -/
theorem claim_C3_cex :
    packToMarkdown
      { id := "c3", name := "X", packName := "US_ID_V1", goal := "G",
        perImage := "a\nb", systemNotes := "N" } ≠
    "Pack Name: US_ID_V1\n\nObjective: G\n\nPer Image Directives:\n- a\n- b\n\nSystem Notes: N" := by
  decide

/-- Claim C3 (amended): for every pack record, the pack-section text is, in
this fixed order, a `Pack Name:` line, an `Objective:` line, a blank line,
a `Per Image Directives:` heading followed by one `- ` bullet per line of
the record's directive list, a blank line, and a `System Notes:` line (no
blank line between the Pack Name and Objective lines); in particular for
packName `US_ID_V1`, goal `G`, directives `a\nb`, notes `N` the output is
exactly those lines with those values. -/
theorem claim_C3 :
    (∀ pack : PackPrompt,
      packToMarkdown pack =
        "Pack Name: " ++ pack.packName ++ "\nObjective: " ++ pack.goal ++
        "\n\nPer Image Directives:\n" ++
        String.intercalate "\n" ((splitNl pack.perImage).map (fun line => "- " ++ line)) ++
        "\n\nSystem Notes: " ++ pack.systemNotes) ∧
    packToMarkdown
      { id := "c3", name := "X", packName := "US_ID_V1", goal := "G",
        perImage := "a\nb", systemNotes := "N" } =
    "Pack Name: US_ID_V1\nObjective: G\n\nPer Image Directives:\n- a\n- b\n\nSystem Notes: N" := by
  constructor
  · intro pack
    have h1 : ∀ x : String, "\n" ++ ("Objective: " ++ x) = "\nObjective: " ++ x := by
      intro x; rw [← String.append_assoc]; rfl
    have h2 : ∀ x : String, "\n\n" ++ ("System Notes: " ++ x) = "\n\nSystem Notes: " ++ x := by
      intro x; rw [← String.append_assoc]; rfl
    simp [packToMarkdown, String.intercalate, String.intercalate.go,
      String.append_assoc, h1, h2]
  · rfl

/-- Claim C8: for every state, the combined text equals the rendered
template, the fixed divider `\n\n---\n\n` and the pack-section rendering
of the active pack, and equals the rendered template exactly (no divider,
no pack section) when no pack is active. -/
theorem claim_C8 (st : AppState) :
    combinedPrompt st =
      (match selectedPack st with
       | none => injectVariables st.metaPrompt st.«variables»
       | some pack =>
           injectVariables st.metaPrompt st.«variables» ++ "\n\n---\n\n" ++
             packToMarkdown pack) := by
  cases h : selectedPack st <;> simp [combinedPrompt, finalPrompt, h]

/-! ### Unresolved-marker lemmas (claim C5) -/

theorem isPrefixOf_self_append (l t : List Char) : l.isPrefixOf (l ++ t) = true := by
  induction l with
  | nil => simp [List.isPrefixOf]
  | cons a l ih => simp [List.isPrefixOf, ih]

theorem hasSub_of_append (sub : List Char) :
    ∀ a b : List Char, hasSub (a ++ sub ++ b) sub = true := by
  intro a
  induction a with
  | nil =>
      intro b
      cases sub with
      | nil =>
          cases b with
          | nil => rfl
          | cons c t => simp [hasSub, List.isPrefixOf]
      | cons s st =>
          rw [show ([] : List Char) ++ (s :: st) ++ b = s :: (st ++ b) by simp]
          rw [hasSub]
          rw [show s :: (st ++ b) = (s :: st) ++ b by simp]
          rw [isPrefixOf_self_append]
          simp
  | cons x a ih =>
      intro b
      rw [show (x :: a) ++ sub ++ b = x :: (a ++ sub ++ b) by simp]
      rw [hasSub]
      rw [ih b]
      simp

theorem renderToks_unresolved (values : VariableMap) (k : String)
    (hv : lookupVar values k = none ∨ lookupVar values k = some "") :
    ∀ ts : List Tok, k ∈ occKeys ts →
      ∃ a b, renderToks values ts =
        a ++ ('\x7b' :: '\x7b' :: (k.data ++ ['\x7d', '\x7d'])) ++ b := by
  intro ts hk
  induction ts with
  | nil => simp [occKeys] at hk
  | cons t ts ih =>
      cases t with
      | lit c =>
          rw [occKeys] at hk
          obtain ⟨a, b, hab⟩ := ih hk
          refine ⟨c :: a, b, ?_⟩
          rw [renderToks, hab]
          simp
      | marker inner =>
          by_cases hcase : k = normaliseKey (String.mk inner) ∧
              (normaliseKey (String.mk inner)).length > 0
          · obtain ⟨hkey, hlen⟩ := hcase
            refine ⟨[], renderToks values ts, ?_⟩
            rw [renderToks]
            rcases hv with hv | hv <;> simp [← hkey, hv]
          · have hk2 : k ∈ occKeys ts := by
              rw [occKeys] at hk
              by_cases hlen : (normaliseKey (String.mk inner)).length > 0
              · simp only [hlen, if_pos] at hk
                rcases List.mem_cons.mp hk with h | h
                · exact absurd ⟨h, hlen⟩ hcase
                · exact h
              · simpa [hlen] using hk
            obtain ⟨a, b, hab⟩ := ih hk2
            refine ⟨(match lookupVar values (normaliseKey (String.mk inner)) with
                     | some value =>
                         if value ≠ "" then value.data
                         else '\x7b' :: '\x7b' ::
                           ((normaliseKey (String.mk inner)).data ++ ['\x7d', '\x7d'])
                     | none => '\x7b' :: '\x7b' ::
                         ((normaliseKey (String.mk inner)).data ++ ['\x7d', '\x7d'])) ++ a,
                    b, ?_⟩
            rw [renderToks, hab]
            simp

/-- Claim C5: every scanned name whose value is absent or empty appears in
the rendered output as its own marker `{{name}}` (a contiguous substring),
never erased; and the render function is total by construction. -/
theorem claim_C5 (T : String) (S : VariableMap) (k : String)
    (h1 : k ∈ detectPlaceholders T)
    (h2 : lookupVar S k = none ∨ lookupVar S k = some "") :
    hasSub (injectVariables T S).data
      ('\x7b' :: '\x7b' :: (k.data ++ ['\x7d', '\x7d'])) = true := by
  have hocc : k ∈ occKeys (tokenize T.data) := by
    rw [detectPlaceholders, collectKeys_eq] at h1
    simp only [List.nil_append] at h1
    have h1b : k ∈ dedupFO (occKeys (tokenize T.data)) := List.mem_of_mem_filter h1
    exact (mem_dedupFO _ _).mp h1b
  obtain ⟨a, b, hab⟩ := renderToks_unresolved S k h2 _ hocc
  show hasSub (renderToks S (tokenize T.data)) _ = true
  rw [hab]
  exact hasSub_of_append _ a b

theorem claim_C5_witness :
    ("a" ∈ detectPlaceholders "\x7b\x7ba\x7d\x7d x") ∧
    (lookupVar [("b", "1")] "a" = none) ∧
    hasSub (injectVariables "\x7b\x7ba\x7d\x7d x" [("b", "1")]).data
      ('\x7b' :: '\x7b' :: ("a".data ++ ['\x7d', '\x7d'])) = true :=
  ⟨by decide, by decide,
   claim_C5 "\x7b\x7ba\x7d\x7d x" [("b", "1")] "a" (by decide) (Or.inl (by decide))⟩

/-! ### Registry claims -/

/-- Claim C10: for every state with a non-empty registry, the derived
active pack resolves to some record, and when the stored id matches no
record it is the first record; so the degenerate no-pack branch is taken
only on an empty registry. -/
theorem claim_C10 (st : AppState) (h : st.packs ≠ []) :
    (selectedPack st).isSome = true ∧
    selectedPack st =
      (if (st.packs.find? (fun pack => pack.id == st.selectedPackId)).isNone = true
       then st.packs.head?
       else st.packs.find? (fun pack => pack.id == st.selectedPackId)) := by
  constructor
  · rw [selectedPack]
    cases hf : st.packs.find? (fun pack => pack.id == st.selectedPackId) with
    | some p => simp
    | none =>
        cases hp : st.packs with
        | nil => exact absurd hp h
        | cons a l => simp [hp]
  · rw [selectedPack]
    cases hf : st.packs.find? (fun pack => pack.id == st.selectedPackId) <;> simp [hf]

theorem claim_C10_witness :
    (initialState.packs ≠ []) ∧
    ((selectedPack initialState).isSome = true ∧
     selectedPack initialState =
       (if (initialState.packs.find?
              (fun pack => pack.id == initialState.selectedPackId)).isNone = true
        then initialState.packs.head?
        else initialState.packs.find?
               (fun pack => pack.id == initialState.selectedPackId))) :=
  ⟨by decide, claim_C10 initialState (by decide)⟩

/-- Claim C1 counterexample: starting from the initial state with the
`us_id` pack selected, selecting the non-existent id `bogus` changes the
derived active selection (it silently falls back to the first record,
`tr_invoice`), contrary to the claim that the active selection stays
unchanged and a lookup failure is signalled. -/
theorem claim_C1_cex :
    ((handleSelectPack initialState "us_id").packs.find?
        (fun item => item.id == "bogus") = none) ∧
    selectedPack (handleSelectPack (handleSelectPack initialState "us_id") "bogus") ≠
      selectedPack (handleSelectPack initialState "us_id") := by
  constructor
  · decide
  · decide

/-- Claim C1 (amended): selecting an id that matches no record stores that
id as the selection id but changes nothing else - all pack records and all
variables (including `pack_name`) stay unchanged and no failure is
signalled; the derived active selection then falls back to the first
record of the registry. -/
theorem claim_C1 (st : AppState) (packId : String)
    (h : st.packs.find? (fun item => item.id == packId) = none) :
    handleSelectPack st packId = { st with selectedPackId := packId } ∧
    selectedPack (handleSelectPack st packId) = st.packs.head? := by
  have heq : handleSelectPack st packId = { st with selectedPackId := packId } := by
    rw [handleSelectPack]
    rw [h]
  refine ⟨heq, ?_⟩
  rw [heq, selectedPack]
  rw [show ({ st with selectedPackId := packId } : AppState).packs = st.packs from rfl]
  rw [show ({ st with selectedPackId := packId } : AppState).selectedPackId = packId from rfl]
  rw [h]

theorem claim_C1_witness :
    (initialState.packs.find? (fun item => item.id == "nope") = none) ∧
    (handleSelectPack initialState "nope" = { initialState with selectedPackId := "nope" } ∧
     selectedPack (handleSelectPack initialState "nope") = initialState.packs.head?) :=
  ⟨by decide, claim_C1 initialState "nope" (by decide)⟩

/-! ### Field-update claims -/

theorem lookupVar_setVar_self (m : VariableMap) (k v : String) :
    lookupVar (setVar m k v) k = some v := by
  induction m with
  | nil => simp [setVar, lookupVar]
  | cons kv rest ih =>
      obtain ⟨k0, v0⟩ := kv
      rw [setVar]
      by_cases hk : k0 = k
      · simp [hk, lookupVar]
      · simp [hk, lookupVar, ih]

/-- Claim C7: a field edit keyed to the current selection changes only
that field of the matching record (position-wise, every non-matching
record is unchanged and the matching record changes only in the edited
field), and a `packName` edit additionally propagates the new value into
the `pack_name` variable, so reading it back yields the new value. -/
theorem claim_C7 (st : AppState) (field : PackField) (value : String)
    (i : Nat) (p : PackPrompt) (g : PackField)
    (hp : st.packs[i]? = some p) :
    (handlePackFieldChange st field value).metaPrompt = st.metaPrompt ∧
    (handlePackFieldChange st field value).selectedPackId = st.selectedPackId ∧
    (handlePackFieldChange st field value).packs.length = st.packs.length ∧
    (handlePackFieldChange st field value).packs[i]? =
      some (if p.id == st.selectedPackId then setField p field value else p) ∧
    getField (setField p field value) g = (if g = field then value else getField p g) ∧
    lookupVar (handlePackFieldChange st field value).«variables» "pack_name" =
      (if field = PackField.packName then some value
       else lookupVar st.«variables» "pack_name") := by
  have hpacks : (handlePackFieldChange st field value).packs =
      st.packs.map (fun pack =>
        if pack.id == st.selectedPackId then setField pack field value else pack) := by
    rw [handlePackFieldChange]
    by_cases hf : field = PackField.packName <;> simp [hf, handleVariableChange]
  refine ⟨?_, ?_, ?_, ?_, ?_, ?_⟩
  · rw [handlePackFieldChange]
    by_cases hf : field = PackField.packName <;> simp [hf, handleVariableChange]
  · rw [handlePackFieldChange]
    by_cases hf : field = PackField.packName <;> simp [hf, handleVariableChange]
  · rw [hpacks]; simp
  · rw [hpacks, List.getElem?_map, hp]
    rfl
  · cases g <;> cases field <;> simp [getField, setField]
  · by_cases hf : field = PackField.packName
    · simp [handlePackFieldChange, hf, handleVariableChange, lookupVar_setVar_self]
    · simp [handlePackFieldChange, hf, handleVariableChange]

theorem claim_C7_witness :
    (sampleState.packs[0]? = some samplePack) ∧
    ((handlePackFieldChange sampleState PackField.packName "FOO").metaPrompt =
        sampleState.metaPrompt ∧
     (handlePackFieldChange sampleState PackField.packName "FOO").selectedPackId =
        sampleState.selectedPackId ∧
     (handlePackFieldChange sampleState PackField.packName "FOO").packs.length =
        sampleState.packs.length ∧
     (handlePackFieldChange sampleState PackField.packName "FOO").packs[0]? =
        some (if samplePack.id == sampleState.selectedPackId
              then setField samplePack PackField.packName "FOO" else samplePack) ∧
     getField (setField samplePack PackField.packName "FOO") PackField.goal =
        (if PackField.goal = PackField.packName then "FOO"
         else getField samplePack PackField.goal) ∧
     lookupVar (handlePackFieldChange sampleState PackField.packName "FOO").«variables»
        "pack_name" =
       (if PackField.packName = PackField.packName then some "FOO"
        else lookupVar sampleState.«variables» "pack_name")) :=
  ⟨rfl, claim_C7 sampleState PackField.packName "FOO" 0 samplePack PackField.goal rfl⟩

/-! ### Snapshot claim -/

/-- Claim C9: for every state the snapshot text is the 2-space-indented
serialization of an object with exactly three top-level fields - the
rendered template, the active pack reshaped into packName / goal /
trimmed directive lines / systemNotes (or null when no pack is active),
and the full variable mapping (all entries, stale ones included); on the
sample state the text is the exact pretty-printed literal. -/
theorem claim_C9 :
    (∀ st : AppState,
      jsonExport st =
        stringifyVal 8 ""
          (Json.obj
            [("metaPrompt", Json.str (injectVariables st.metaPrompt st.«variables»)),
             ("selectedPack", packJsonOf (selectedPack st)),
             ("variables",
               Json.obj (st.«variables».map (fun kv => (kv.1, Json.str kv.2))))]) ∧
      packJsonOf (selectedPack st) =
        (match selectedPack st with
         | some pack =>
             Json.obj
               [("packName", Json.str pack.packName),
                ("goal", Json.str pack.goal),
                ("perImage",
                  Json.arr ((splitNl pack.perImage).map
                    (fun line => Json.str (trimStr line)))),
                ("systemNotes", Json.str pack.systemNotes)]
         | none => Json.null)) ∧
    jsonExport sampleState =
      "\x7b\n  \"metaPrompt\": \"Hi 1\",\n  \"selectedPack\": \x7b\n    \"packName\": \"P\",\n    \"goal\": \"G\",\n    \"perImage\": [\n      \"a\",\n      \"b\"\n    ],\n    \"systemNotes\": \"N\"\n  \x7d,\n  \"variables\": \x7b\n    \"x\": \"1\"\n  \x7d\n\x7d" := by
  constructor
  · intro st
    constructor
    · rw [jsonExport, snapshotJson, finalPrompt]
      cases h : selectedPack st <;> simp [packJsonOf, h]
    · cases h : selectedPack st <;> simp [packJsonOf, packSnapshot, h]
  · rfl

/-! ### Registry-growth claim -/

theorem digitChar_inj_lt :
    ∀ a < 10, ∀ b < 10, Nat.digitChar a = Nat.digitChar b → a = b := by decide

theorem map_digitChar_inj :
    ∀ l1 l2 : List Nat, (∀ x ∈ l1, x < 10) → (∀ x ∈ l2, x < 10) →
      l1.map Nat.digitChar = l2.map Nat.digitChar → l1 = l2 := by
  intro l1
  induction l1 with
  | nil =>
      intro l2 _ _ h
      cases l2 with
      | nil => rfl
      | cons b bs => simp at h
  | cons a as ih =>
      intro l2 h1 h2 h
      cases l2 with
      | nil => simp at h
      | cons b bs =>
          simp only [List.map_cons, List.cons.injEq] at h
          obtain ⟨hab, hrest⟩ := h
          have ha := h1 a (List.mem_cons_self _ _)
          have hb := h2 b (List.mem_cons_self _ _)
          have hEq : a = b := digitChar_inj_lt a ha b hb hab
          subst hEq
          rw [ih bs (fun x hx => h1 x (List.mem_cons_of_mem _ hx))
            (fun x hx => h2 x (List.mem_cons_of_mem _ hx)) hrest]

theorem stringDataInj {a b : String} (h : a.data = b.data) : a = b := by
  cases a
  cases b
  exact congrArg String.mk h

theorem natRepr_inj_pos {a b : Nat} (ha : a ≠ 0) (hb : b ≠ 0)
    (h : natRepr a = natRepr b) : a = b := by
  rw [natRepr, natRepr, if_neg ha, if_neg hb] at h
  have hdata : (Nat.digits 10 a).reverse.map Nat.digitChar =
      (Nat.digits 10 b).reverse.map Nat.digitChar := congrArg String.data h
  have hbound1 : ∀ x ∈ (Nat.digits 10 a).reverse, x < 10 := fun x hx =>
    Nat.digits_lt_base (by norm_num) (List.mem_reverse.mp hx)
  have hbound2 : ∀ x ∈ (Nat.digits 10 b).reverse, x < 10 := fun x hx =>
    Nat.digits_lt_base (by norm_num) (List.mem_reverse.mp hx)
  have hrev := map_digitChar_inj _ _ hbound1 hbound2 hdata
  have hdig : Nat.digits 10 a = Nat.digits 10 b := by
    have h2 := congrArg List.reverse hrev
    simpa using h2
  calc a = Nat.ofDigits 10 (Nat.digits 10 a) := (Nat.ofDigits_digits 10 a).symm
    _ = Nat.ofDigits 10 (Nat.digits 10 b) := by rw [hdig]
    _ = b := Nat.ofDigits_digits 10 b

theorem packIdPrefix_ne_seed (x : String) :
    "pack_" ++ x ≠ "tr_invoice" ∧ "pack_" ++ x ≠ "us_id" ∧
      "pack_" ++ x ≠ "parking_tickets" := by
  refine ⟨?_, ?_, ?_⟩ <;> intro h <;>
  · have h2 := congrArg String.data h
    rw [String.data_append] at h2
    rw [show "pack_".data = ['p', 'a', 'c', 'k', '_'] from rfl] at h2
    simp_all

theorem addNewPack_packs (st : AppState) :
    (addNewPack st).packs = st.packs ++ [freshPackDefaults (st.packs.length + 1)] := by
  simp [addNewPack, handleVariableChange]

theorem addNewPack_iterate (k : Nat) :
    (addNewPack^[k] initialState).packs =
      DEFAULT_PACKS ++ (List.range k).map (fun i => freshPackDefaults (4 + i)) := by
  induction k with
  | zero => simp [initialState]
  | succ k ih =>
      rw [Function.iterate_succ_apply', addNewPack_packs, ih]
      have hlen : (DEFAULT_PACKS ++
          (List.range k).map (fun i => freshPackDefaults (4 + i))).length = 3 + k := by
        simp [show DEFAULT_PACKS.length = 3 from rfl]
      rw [hlen, List.range_succ]
      simp [show 3 + k + 1 = 4 + k from by omega]

theorem iterate_packs_length (k : Nat) :
    (addNewPack^[k] initialState).packs.length = 3 + k := by
  rw [addNewPack_iterate]
  simp [show DEFAULT_PACKS.length = 3 from rfl]

/-- Claim C6: starting from the initial state, after any number of add
operations a further add grows the registry by exactly one record,
appended at the end; the new record's id differs from every id already in
the registry (and ids are never removed, so from every id ever issued);
the new record becomes the active selection; and its pack identifier is
written into the `pack_name` variable. -/
theorem claim_C6 (k : Nat) :
    (addNewPack (addNewPack^[k] initialState)).packs.length =
      (addNewPack^[k] initialState).packs.length + 1 ∧
    (addNewPack (addNewPack^[k] initialState)).packs =
      (addNewPack^[k] initialState).packs ++
        [freshPackDefaults ((addNewPack^[k] initialState).packs.length + 1)] ∧
    (freshPackDefaults ((addNewPack^[k] initialState).packs.length + 1)).id ∉
      (addNewPack^[k] initialState).packs.map (fun pack => pack.id) ∧
    (addNewPack (addNewPack^[k] initialState)).selectedPackId =
      (freshPackDefaults ((addNewPack^[k] initialState).packs.length + 1)).id ∧
    lookupVar (addNewPack (addNewPack^[k] initialState)).«variables» "pack_name" =
      some (freshPackDefaults ((addNewPack^[k] initialState).packs.length + 1)).packName := by
  refine ⟨?_, ?_, ?_, ?_, ?_⟩
  · rw [addNewPack_packs]; simp
  · exact addNewPack_packs _
  · rw [iterate_packs_length, addNewPack_iterate]
    intro hmem
    rw [List.map_append, List.mem_append] at hmem
    rcases hmem with hmem | hmem
    · rw [show DEFAULT_PACKS.map (fun pack => pack.id) =
          ["tr_invoice", "us_id", "parking_tickets"] from rfl] at hmem
      have hfresh : (freshPackDefaults (3 + k + 1)).id = "pack_" ++ natRepr (3 + k + 1) := rfl
      rw [hfresh] at hmem
      obtain ⟨hne1, hne2, hne3⟩ := packIdPrefix_ne_seed (natRepr (3 + k + 1))
      simp only [List.mem_cons, List.not_mem_nil, or_false] at hmem
      rcases hmem with h | h | h
      · exact hne1 h
      · exact hne2 h
      · exact hne3 h
    · rw [List.map_map, List.mem_map] at hmem
      obtain ⟨i, hi, hid⟩ := hmem
      rw [List.mem_range] at hi
      have hid2 : "pack_" ++ natRepr (4 + i) = "pack_" ++ natRepr (3 + k + 1) := hid
      have hdata := congrArg String.data hid2
      rw [String.data_append, String.data_append] at hdata
      have hcancel := List.append_cancel_left hdata
      have hnum : 4 + i = 3 + k + 1 :=
        natRepr_inj_pos (by omega) (by omega) (stringDataInj hcancel)
      omega
  · simp [addNewPack, handleVariableChange]
  · rw [show (addNewPack (addNewPack^[k] initialState)).«variables» =
        setVar (addNewPack^[k] initialState).«variables» "pack_name"
          (freshPackDefaults ((addNewPack^[k] initialState).packs.length + 1)).packName
        from rfl]
    exact lookupVar_setVar_self _ _ _

end MetaPrompt
